import Mathlib

/-!
Verification of the falcon-idempotency middleware
(`falcon_idempotency/middlewares.py`, `falcon_idempotency/mixins.py`).

The Python source is shallowly embedded: the Redis store becomes an explicit
association list threaded through the middleware phases, `pickle` becomes an
executable byte-level codec over the observable response fields, exceptions
become `Except` values, and the Falcon request lifecycle
(process_request / process_resource → responder or error hook →
process_response) becomes an explicit composition of the phase functions.
-/

namespace FalconIdempotency

/-- A Python value sitting in a resource capability attribute such as
`idempotent_post`.  The middleware compares with `is True`, so we only need
to distinguish the `True` singleton from every other value (`False`, truthy
non-`True` values, etc.). -/
inductive PyVal where
  | pyTrue
  | pyFalse
  | pyOther
deriving DecidableEq, Repr

/-- Exceptions the embedded code can raise: `ValueError` at construction
(`_BaseKlass.__init__`), `KeyError` from `dict.pop`, pickling failure from
`pickle.dumps` on non-serializable state, and unpickling failure from
`pickle.loads` on malformed data. -/
inductive PyError where
  | configError
  | keyError
  | unpicklable
  | unpickleError
deriving DecidableEq, Repr

/-- A falcon `Response` restricted to its client-observable fields (status,
headers, body) plus an optional non-serializable payload (`stream`), which
models state such as an open stream that `pickle.dumps` cannot serialize. -/
structure Response where
  status : Nat
  headers : List (String × String)
  body : List Nat
  stream : Option Nat
deriving DecidableEq, Repr

/-- Bytes of a string: one byte-token per character. -/
def strBytes (s : String) : List Nat := s.data.map Char.toNat

/-- Inverse of `strBytes`. -/
def bytesStr (l : List Nat) : String := String.mk (l.map Char.ofNat)

/-- Length-prefixed block, the primitive of the serialized form. -/
def encBlock (l : List Nat) : List Nat := l.length :: l

/-- Read one length-prefixed block, returning it and the remaining input. -/
def decBlock : List Nat → Option (List Nat × List Nat)
  | [] => none
  | n :: rest => if n ≤ rest.length then some (rest.take n, rest.drop n) else none

/-- Serialize a string as a length-prefixed block. -/
def encStr (s : String) : List Nat := encBlock (strBytes s)

/-- Read one serialized string. -/
def decStr (bs : List Nat) : Option (String × List Nat) :=
  (decBlock bs).map (fun p => (bytesStr p.1, p.2))

/-- Serialize a header association list (names and values in order). -/
def encHeaderList : List (String × String) → List Nat
  | [] => []
  | h :: t => encStr h.1 ++ encStr h.2 ++ encHeaderList t

/-- Read back `n` serialized header pairs. -/
def decHeaderList : Nat → List Nat → Option (List (String × String) × List Nat)
  | 0, bs => some ([], bs)
  | n + 1, bs =>
    (decStr bs).bind fun p1 =>
    (decStr p1.2).bind fun p2 =>
    (decHeaderList n p2.2).map fun pr => ((p1.1, p2.1) :: pr.1, pr.2)

/-- Wire form of a response: status, header count, headers, body block. -/
def encodeResponse (r : Response) : List Nat :=
  r.status :: r.headers.length :: (encHeaderList r.headers ++ encBlock r.body)

/-- Parse a serialized response; `none` on malformed input. -/
def decodeResponse (bs : List Nat) : Option Response :=
  match bs with
  | st :: n :: rest =>
    (decHeaderList n rest).bind fun ph =>
    (decBlock ph.2).bind fun pb =>
    if pb.2 = [] then some ⟨st, ph.1, pb.1, none⟩ else none
  | _ => none

/-- Models `pickle.dumps(response)`: serializes the observable fields, and
raises (`unpicklable`) when the response carries non-serializable state such
as an open stream. -/
def pickle_dumps (r : Response) : Except PyError (List Nat) :=
  match r.stream with
  | some _ => .error .unpicklable
  | none => .ok (encodeResponse r)

/-- Models `pickle.loads(data)`: parses the serialized form, raising on
malformed input. -/
def pickle_loads (bs : List Nat) : Except PyError Response :=
  match decodeResponse bs with
  | some r => .ok r
  | none => .error .unpickleError

/-- One Redis entry: key, stored bytes, absolute expiry time (`setex` stores
with expiry = store-time + ttl; a `get` after the expiry sees nothing). -/
structure CacheEntry where
  key : String
  value : List Nat
  expiry : Nat
deriving DecidableEq, Repr

/-- The Redis store, as an association list threaded through the phases. -/
abbrev Cache := List CacheEntry

/-- Models `redis.get(key)` at time `now`: the stored value, unless the key
is absent or its TTL has elapsed. -/
def redisGet : Cache → String → Nat → Option (List Nat)
  | [], _, _ => none
  | e :: rest, k, now =>
    if e.key = k then (if now < e.expiry then some e.value else none)
    else redisGet rest k now

/-- Models `redis.setex(key, value, ttl)` at time `now`: (re)binds `key` to
`value` with expiry `now + ttl`. -/
def redisSetex (cache : Cache) (k : String) (v : List Nat) (now ttl : Nat) : Cache :=
  ⟨k, v, now + ttl⟩ :: cache.filter (fun e => e.key != k)

/-- A falcon request as the middleware observes it: the HTTP method and the
result of `request.get_header("idempotency-key")` (`none` when the header is
absent; falcon also returns `None` for a header sent with an empty value,
which callers cannot distinguish from `some ""`, so we keep both). -/
structure Request where
  method : String
  header : Option String
deriving DecidableEq, Repr

/-- Python truthiness of the `get_header` result, as tested by
`if idempotency_key:`. -/
def truthy : Option String → Bool
  | none => false
  | some s => !(s == "")

/-- `_BaseKlass.idempotency_keyname`. -/
def idempotency_keyname : String := "idempotency-key"

/-- `_BaseKlass.redis_key`: the template string for the Redis key name. -/
def redis_key : String := "FALCON_REQUEST_{method}_{idempotency_key}"

/-- `self.redis_key.format(idempotency_key=..., method=...)`: substitutes the
two placeholders of `redis_key`. -/
def redis_key_format (method idempotency_key : String) : String :=
  "FALCON_REQUEST_" ++ method ++ "_" ++ idempotency_key

/-- `_BaseKlass.get_response_from_redis`: look up the formatted key and
unpickle the stored payload if present. -/
def get_response_from_redis (cache : Cache) (now : Nat) (idempotency_key : String)
    (method : String) : Except PyError (Option Response) :=
  match redisGet cache (redis_key_format method idempotency_key) now with
  | none => .ok none
  | some data => (pickle_loads data).map some

/-- `_BaseKlass.store_response_in_redis`: pickle the response and `setex` it
under the formatted key with the configured TTL. -/
def store_response_in_redis (ttl : Nat) (cache : Cache) (now : Nat)
    (idempotency_key : String) (method : String) (response : Response) :
    Except PyError Cache :=
  (pickle_dumps response).map fun bs =>
    redisSetex cache (redis_key_format method idempotency_key) bs now ttl

/-- Outcome of the pre-handler phase: the entries it put into
`request.context`, and whether it raised `SentinelException` (the
short-circuit signal). -/
structure PreOutcome where
  context : List (String × Response)
  sentinel : Bool
deriving DecidableEq, Repr

/-- `SimpleIdempotencyMiddleware.process_request`: when the header is truthy
and a previous response is cached, stash it in `request.context` under the
header value and raise `SentinelException`. -/
def process_request (cache : Cache) (now : Nat) (req : Request) :
    Except PyError PreOutcome :=
  match req.header with
  | none => .ok ⟨[], false⟩
  | some k =>
    if k = "" then .ok ⟨[], false⟩
    else
      match get_response_from_redis cache now k req.method with
      | .error e => .error e
      | .ok none => .ok ⟨[], false⟩
      | .ok (some prev) => .ok ⟨[(k, prev)], true⟩

/-- `SimpleIdempotencyMiddleware.process_response` (also what
`IdempotencyMiddleware.process_response` delegates to): store the outgoing
response whenever the idempotency header is truthy. -/
def process_response (ttl : Nat) (cache : Cache) (now : Nat) (req : Request)
    (response : Response) : Except PyError Cache :=
  match req.header with
  | none => .ok cache
  | some k =>
    if k = "" then .ok cache
    else store_response_in_redis ttl cache now k req.method response

/-- `dict.pop(key)` on the request context: the value plus the remaining
context, or `none` (a `KeyError` in Python) when the key is absent. -/
def ctxPop : List (String × Response) → String → Option (Response × List (String × Response))
  | [], _ => none
  | (k, v) :: rest, key =>
    if k = key then some (v, rest)
    else (ctxPop rest key).map fun p => (p.1, (k, v) :: p.2)

/-- The `for field in dir(previous_response): setattr(response, field, ...)`
loop: every field of the base response is overwritten with the previous
response's field. -/
def copyFields (_base prev : Response) : Response :=
  { status := prev.status, headers := prev.headers, body := prev.body,
    stream := prev.stream }

/-- `SimpleIdempotencyMiddleware.handler`, the error hook registered for
`SentinelException`: pop the stashed response from `request.context` under
the current header value (a `KeyError` when absent — `dict.pop` is called
with a single argument) and copy all of its fields onto the outgoing
response. -/
def handler (req : Request) (context : List (String × Response))
    (response : Response) : Except PyError (Response × List (String × Response)) :=
  match req.header with
  | none => .error .keyError
  | some k =>
    match ctxPop context k with
    | none => .error .keyError
    | some (prev, rest) => .ok (copyFields response prev, rest)

/-- A routed resource, as the capability attributes `process_resource` reads
via `getattr(resource, "idempotent_post", None)`: `none` models an absent
attribute, `some v` an attribute bound to the Python value `v`.  The mixins
`IdempotentPostMixin` / `IdempotentDeleteMixin` bind the respective
attribute to `some .pyTrue`. -/
structure Resource where
  idempotent_post : Option PyVal
  idempotent_delete : Option PyVal
deriving DecidableEq, Repr

/-- `IdempotencyMiddleware.process_resource`: defer to the parent
`process_request` only for POST with `idempotent_post is True`, or DELETE
with `idempotent_delete is True`; otherwise do nothing. -/
def process_resource (cache : Cache) (now : Nat) (req : Request)
    (resource : Resource) : Except PyError PreOutcome :=
  if req.method = "POST" then
    if resource.idempotent_post = some .pyTrue then process_request cache now req
    else .ok ⟨[], false⟩
  else if req.method = "DELETE" then
    if resource.idempotent_delete = some .pyTrue then process_request cache now req
    else .ok ⟨[], false⟩
  else .ok ⟨[], false⟩

/-- Result of one full request: the response sent to the client, whether the
resource's responder (the real handler) ran, the cache afterwards, and the
request context afterwards. -/
structure RunResult where
  response : Response
  handlerInvoked : Bool
  cache : Cache
  context : List (String × Response)
deriving DecidableEq, Repr

/-- The default falcon response a request starts with (200, no headers, no
body); the replay hook overwrites every field of it. -/
def defaultResponse : Response := ⟨200, [], [], none⟩

/-- One request through `SimpleIdempotencyMiddleware` under the falcon
lifecycle: `process_request`; on `SentinelException` the registered error
hook (`handler`) replaces the responder, otherwise the responder `hdl` runs;
finally `process_response` always runs.  `hdl req now` is the response the
resource produces at time `now` (time stands in for the responder's
non-determinism, e.g. fresh transaction ids). -/
def runRequest (ttl : Nat) (cache : Cache) (hdl : Request → Nat → Response)
    (req : Request) (now : Nat) : Except PyError RunResult :=
  match process_request cache now req with
  | .error e => .error e
  | .ok pre =>
    if pre.sentinel then
      match handler req pre.context defaultResponse with
      | .error e => .error e
      | .ok (resp, ctx) =>
        match process_response ttl cache now req resp with
        | .error e => .error e
        | .ok cache2 => .ok ⟨resp, false, cache2, ctx⟩
    else
      match process_response ttl cache now req (hdl req now) with
      | .error e => .error e
      | .ok cache2 => .ok ⟨hdl req now, true, cache2, pre.context⟩

/-- One request through `IdempotencyMiddleware`: its `process_request` is a
no-op and the lookup is deferred to `process_resource`; the rest of the
lifecycle is inherited from `SimpleIdempotencyMiddleware`. -/
def runRequestOptIn (ttl : Nat) (cache : Cache) (hdl : Request → Nat → Response)
    (req : Request) (resource : Resource) (now : Nat) : Except PyError RunResult :=
  match process_resource cache now req resource with
  | .error e => .error e
  | .ok pre =>
    if pre.sentinel then
      match handler req pre.context defaultResponse with
      | .error e => .error e
      | .ok (resp, ctx) =>
        match process_response ttl cache now req resp with
        | .error e => .error e
        | .ok cache2 => .ok ⟨resp, false, cache2, ctx⟩
    else
      match process_response ttl cache now req (hdl req now) with
      | .error e => .error e
      | .ok cache2 => .ok ⟨hdl req now, true, cache2, pre.context⟩

/-- An opaque, already-constructed Redis connection handle. -/
structure RedisConn where
  id : Nat
deriving DecidableEq, Repr

/-- The fields `_BaseKlass.__init__` sets. -/
structure MiddlewareConfig where
  redis_url : Option String
  redis_connection : Option RedisConn
  ttl : Nat
deriving DecidableEq, Repr

/-- `_BaseKlass.__init__(redis_url, redis_connection, idempotency_ttl)`:
raises `ValueError` (modelled as `configError`) when both `redis_connection`
and `redis_url` are `None`. -/
def mwInit (redis_url : Option String) (redis_connection : Option RedisConn)
    (idempotency_ttl : Nat) : Except PyError MiddlewareConfig :=
  if redis_connection = none ∧ redis_url = none then .error .configError
  else .ok ⟨redis_url, redis_connection, idempotency_ttl⟩

/-- The Python default of the `idempotency_ttl` parameter. -/
def default_idempotency_ttl : Nat := 3600

/-- Construction without passing `idempotency_ttl`, which Python fills with
the default value of 3600. -/
def mwInitDefault (redis_url : Option String) (redis_connection : Option RedisConn) :
    Except PyError MiddlewareConfig :=
  mwInit redis_url redis_connection default_idempotency_ttl

/-- The Scope Policy predicate as the spec words it (4.4, opt-in variant):
idempotency applies iff the method is POST and the resource declares
`idempotent_post` as exactly `True`, or DELETE with `idempotent_delete`
exactly `True`. -/
def scope_applies (req : Request) (resource : Resource) : Bool :=
  (decide (req.method = "POST") && decide (resource.idempotent_post = some PyVal.pyTrue))
  || (decide (req.method = "DELETE") && decide (resource.idempotent_delete = some PyVal.pyTrue))

/-- The Scope Policy's "stash present" precondition: the request context
holds an entry under the request's current idempotency header value. -/
def stash_present (req : Request) (context : List (String × Response)) : Bool :=
  match req.header with
  | some k => (ctxPop context k).isSome
  | none => false

/-- A concrete handler response used as evaluation input. -/
def sampleResponse : Response := ⟨201, [("trans-id", "abc")], [104, 105], none⟩

/-- A response carrying non-serializable state (an open stream). -/
def streamResponse : Response := ⟨200, [], [], some 0⟩

/-- A concrete responder: its body is the request's arrival time, so distinct
invocations are observable. -/
def sampleHdl : Request → Nat → Response := fun _ t => ⟨200, [], [t], none⟩

/-- A concrete cache holding a previously stored response for
`POST` with idempotency key `K`, expiring at time 10. -/
def hitCache : Cache :=
  [⟨redis_key_format "POST" "K", encodeResponse sampleResponse, 10⟩]

/-- The result of a GET request carrying an idempotency header through
`IdempotencyMiddleware` at time 3 with TTL 10 over an empty cache: the
responder runs, and the post-handler phase still writes the cache. -/
def c4res : RunResult :=
  ⟨⟨200, [], [3], none⟩, true,
   [⟨redis_key_format "GET" "K", encodeResponse ⟨200, [], [3], none⟩, 13⟩], []⟩

theorem bytesStr_strBytes (s : String) : bytesStr (strBytes s) = s := by
  unfold bytesStr strBytes
  rw [List.map_map]
  have h : (Char.ofNat ∘ Char.toNat) = id := funext fun c => Char.ofNat_toNat c
  rw [h, List.map_id]

theorem decBlock_encBlock (l rest : List Nat) :
    decBlock (encBlock l ++ rest) = some (l, rest) := by
  simp [decBlock, encBlock]

theorem decStr_encStr (s : String) (rest : List Nat) :
    decStr (encStr s ++ rest) = some (s, rest) := by
  simp [decStr, encStr, decBlock_encBlock, bytesStr_strBytes]

theorem decHeaderList_encHeaderList (hs : List (String × String)) (rest : List Nat) :
    decHeaderList hs.length (encHeaderList hs ++ rest) = some (hs, rest) := by
  induction hs with
  | nil => simp [encHeaderList, decHeaderList]
  | cons hd tl ih =>
    simp [encHeaderList, decHeaderList, List.append_assoc, decStr_encStr, ih]

theorem decodeResponse_encodeResponse (r : Response) (h : r.stream = none) :
    decodeResponse (encodeResponse r) = some r := by
  cases r with
  | mk st hs bd strm =>
    cases strm with
    | some v => simp at h
    | none =>
      show decodeResponse (st :: hs.length :: (encHeaderList hs ++ encBlock bd)) = _
      have h1 := decHeaderList_encHeaderList hs (encBlock bd)
      have h2 : decBlock (encBlock bd ++ []) = some (bd, []) := decBlock_encBlock bd []
      simp only [List.append_nil] at h2
      simp [decodeResponse, h1, h2]

theorem pickle_roundtrip (r : Response) (bs : List Nat)
    (h : pickle_dumps r = .ok bs) : pickle_loads bs = .ok r := by
  unfold pickle_dumps at h
  cases hstream : r.stream with
  | some v => rw [hstream] at h; exact absurd h (by simp)
  | none =>
    rw [hstream] at h
    cases h
    unfold pickle_loads
    rw [decodeResponse_encodeResponse r hstream]

theorem redisGet_redisSetex (c : Cache) (k : String) (v : List Nat)
    (now ttl t : Nat) :
    redisGet (redisSetex c k v now ttl) k t =
      if t < now + ttl then some v else none := by
  simp [redisSetex, redisGet]

theorem copyFields_eq (b p : Response) : copyFields b p = p := rfl

theorem process_request_miss (cache : Cache) (now : Nat) (req : Request) (k : String)
    (hh : req.header = some k) (hk : k ≠ "")
    (hmiss : redisGet cache (redis_key_format req.method k) now = none) :
    process_request cache now req = .ok ⟨[], false⟩ := by
  simp [process_request, hh, hk, get_response_from_redis, hmiss]

theorem process_request_hit (cache : Cache) (now : Nat) (req : Request) (k : String)
    (bs : List Nat) (r : Response)
    (hh : req.header = some k) (hk : k ≠ "")
    (hget : redisGet cache (redis_key_format req.method k) now = some bs)
    (hloads : pickle_loads bs = .ok r) :
    process_request cache now req = .ok ⟨[(k, r)], true⟩ := by
  simp [process_request, hh, hk, get_response_from_redis, hget, hloads, Except.map]

theorem process_response_store (ttl : Nat) (cache : Cache) (now : Nat)
    (req : Request) (k : String) (resp : Response)
    (hh : req.header = some k) (hk : k ≠ "") (hs : resp.stream = none) :
    process_response ttl cache now req resp =
      .ok (redisSetex cache (redis_key_format req.method k) (encodeResponse resp) now ttl) := by
  simp [process_response, hh, hk, store_response_in_redis, pickle_dumps, hs, Except.map]

theorem process_response_nop (ttl : Nat) (cache : Cache) (now : Nat)
    (req : Request) (resp : Response) (h : truthy req.header = false) :
    process_response ttl cache now req resp = .ok cache := by
  cases hh : req.header with
  | none => simp [process_response, hh]
  | some s =>
    rw [hh] at h
    unfold truthy at h
    simp at h
    simp [process_response, hh, h]

theorem process_response_ok_inv (ttl : Nat) (cache : Cache) (now : Nat)
    (req : Request) (resp : Response) (c2 : Cache)
    (h : process_response ttl cache now req resp = .ok c2) :
    (truthy req.header = false → c2 = cache)
    ∧ (∀ k, req.header = some k → k ≠ "" →
        c2 = redisSetex cache (redis_key_format req.method k) (encodeResponse resp) now ttl) := by
  cases hh : req.header with
  | none =>
    rw [process_response_nop ttl cache now req resp (by simp [truthy, hh])] at h
    cases h
    exact ⟨fun _ => rfl, fun k hk => absurd hk (by simp)⟩
  | some s =>
    by_cases hk : s = ""
    · subst hk
      rw [process_response_nop ttl cache now req resp (by simp [truthy, hh])] at h
      cases h
      refine ⟨fun _ => rfl, fun k hks hkne => ?_⟩
      cases hks
      exact absurd rfl hkne
    · refine ⟨fun hf => ?_, fun k hks hkne => ?_⟩
      · simp [truthy, hk] at hf
      · cases hks
        cases hstr : resp.stream with
        | some v =>
          rw [show process_response ttl cache now req resp = .error .unpicklable by
            simp [process_response, hh, hk, store_response_in_redis, pickle_dumps,
              hstr, Except.map]] at h
          cases h
        | none =>
          rw [process_response_store ttl cache now req s resp hh hk hstr] at h
          cases h
          rfl

theorem runRequest_cache_eq (ttl : Nat) (cache : Cache)
    (hdl : Request → Nat → Response) (req : Request) (now : Nat) (res : RunResult)
    (h : runRequest ttl cache hdl req now = .ok res) :
    process_response ttl cache now req res.response = .ok res.cache := by
  unfold runRequest at h
  split at h
  next e heq => exact Except.noConfusion h
  next pre heq =>
    split at h
    · split at h
      next e2 heq2 => exact Except.noConfusion h
      next resp ctx heq2 =>
        split at h
        next e3 heq3 => exact Except.noConfusion h
        next c2 heq3 =>
          cases h
          exact heq3
    · split at h
      next e2 heq2 => exact Except.noConfusion h
      next c2 heq2 =>
        cases h
        exact heq2

theorem runRequestOptIn_cache_eq (ttl : Nat) (cache : Cache)
    (hdl : Request → Nat → Response) (req : Request) (resource : Resource)
    (now : Nat) (res : RunResult)
    (h : runRequestOptIn ttl cache hdl req resource now = .ok res) :
    process_response ttl cache now req res.response = .ok res.cache := by
  unfold runRequestOptIn at h
  split at h
  next e heq => exact Except.noConfusion h
  next pre heq =>
    split at h
    · split at h
      next e2 heq2 => exact Except.noConfusion h
      next resp ctx heq2 =>
        split at h
        next e3 heq3 => exact Except.noConfusion h
        next c2 heq3 =>
          cases h
          exact heq3
    · split at h
      next e2 heq2 => exact Except.noConfusion h
      next c2 heq2 =>
        cases h
        exact heq2

theorem scope_applies_iff (req : Request) (resource : Resource) :
    scope_applies req resource = true ↔
      ((req.method = "POST" ∧ resource.idempotent_post = some .pyTrue)
       ∨ (req.method = "DELETE" ∧ resource.idempotent_delete = some .pyTrue)) := by
  simp [scope_applies]

theorem sep_inj (c : Char) (xs : List Char) : ∀ (xs' ys ys' : List Char),
    c ∉ xs → c ∉ xs' → xs ++ c :: ys = xs' ++ c :: ys' → xs = xs' ∧ ys = ys' := by
  induction xs with
  | nil =>
    intro xs' ys ys' _ hx' h
    cases xs' with
    | nil =>
      simp only [List.nil_append] at h
      exact ⟨rfl, (List.cons.injEq _ _ _ _ ▸ h).2⟩
    | cons a t =>
      simp only [List.nil_append, List.cons_append, List.cons.injEq] at h
      exact absurd (by rw [h.1]; exact List.mem_cons_self a t) hx'
  | cons x xt ih =>
    intro xs' ys ys' hx hx' h
    cases xs' with
    | nil =>
      simp only [List.nil_append, List.cons_append, List.cons.injEq] at h
      exact absurd (by rw [← h.1]; exact List.mem_cons_self x xt) hx
    | cons a t =>
      simp only [List.cons_append, List.cons.injEq] at h
      obtain ⟨h1, h2⟩ := h
      have hx2 : c ∉ xt := fun hm => hx (List.mem_cons_of_mem _ hm)
      have hx'2 : c ∉ t := fun hm => hx' (List.mem_cons_of_mem _ hm)
      obtain ⟨e1, e2⟩ := ih t ys ys' hx2 hx'2 h2
      exact ⟨by rw [h1, e1], e2⟩

theorem pickle_loads_ne_config (bs : List Nat) :
    pickle_loads bs ≠ .error .configError := by
  unfold pickle_loads
  split <;> simp

theorem get_response_from_redis_ne_config (cache : Cache) (now : Nat)
    (k m : String) : get_response_from_redis cache now k m ≠ .error .configError := by
  unfold get_response_from_redis
  split
  · simp
  next data heq =>
    intro hc
    cases hl : pickle_loads data with
    | error e =>
      rw [hl] at hc
      simp [Except.map] at hc
      exact pickle_loads_ne_config data (by rw [hl, hc])
    | ok r => rw [hl] at hc; simp [Except.map] at hc

theorem pickle_dumps_ne_config (r : Response) :
    pickle_dumps r ≠ .error .configError := by
  unfold pickle_dumps
  split <;> simp

theorem store_response_in_redis_ne_config (ttl : Nat) (cache : Cache) (now : Nat)
    (k m : String) (resp : Response) :
    store_response_in_redis ttl cache now k m resp ≠ .error .configError := by
  unfold store_response_in_redis
  intro hc
  cases hd : pickle_dumps resp with
  | error e =>
    rw [hd] at hc
    simp [Except.map] at hc
    exact pickle_dumps_ne_config resp (by rw [hd, hc])
  | ok bs => rw [hd] at hc; simp [Except.map] at hc

theorem process_request_ne_config (cache : Cache) (now : Nat) (req : Request) :
    process_request cache now req ≠ .error .configError := by
  unfold process_request
  split
  · simp
  next k hh =>
    split
    · simp
    · split
      next e heq =>
        intro hc
        rw [show e = PyError.configError from Except.error.inj hc] at heq
        exact get_response_from_redis_ne_config cache now k req.method heq
      next heq => simp
      next prev heq => simp

theorem process_response_ne_config (ttl : Nat) (cache : Cache) (now : Nat)
    (req : Request) (resp : Response) :
    process_response ttl cache now req resp ≠ .error .configError := by
  unfold process_response
  split
  · simp
  next k hh =>
    split
    · simp
    · exact store_response_in_redis_ne_config ttl cache now k req.method resp

theorem handler_ne_config (req : Request) (context : List (String × Response))
    (resp : Response) : handler req context resp ≠ .error .configError := by
  unfold handler
  split
  · simp
  next k hh =>
    split <;> simp

theorem process_resource_ne_config (cache : Cache) (now : Nat) (req : Request)
    (resource : Resource) :
    process_resource cache now req resource ≠ .error .configError := by
  unfold process_resource
  split
  · split
    · exact process_request_ne_config cache now req
    · simp
  · split
    · split
      · exact process_request_ne_config cache now req
      · simp
    · simp

theorem runRequest_ne_config (ttl : Nat) (cache : Cache)
    (hdl : Request → Nat → Response) (req : Request) (now : Nat) :
    runRequest ttl cache hdl req now ≠ .error .configError := by
  unfold runRequest
  split
  next e heq =>
    intro hc
    rw [show e = PyError.configError from Except.error.inj hc] at heq
    exact process_request_ne_config cache now req heq
  next pre heq =>
    split
    · split
      next e2 heq2 =>
        intro hc
        rw [show e2 = PyError.configError from Except.error.inj hc] at heq2
        exact handler_ne_config req pre.context defaultResponse heq2
      next resp ctx heq2 =>
        split
        next e3 heq3 =>
          intro hc
          rw [show e3 = PyError.configError from Except.error.inj hc] at heq3
          exact process_response_ne_config ttl cache now req resp heq3
        next c2 heq3 => simp
    · split
      next e2 heq2 =>
        intro hc
        rw [show e2 = PyError.configError from Except.error.inj hc] at heq2
        exact process_response_ne_config ttl cache now req (hdl req now) heq2
      next c2 heq2 => simp

theorem runRequestOptIn_ne_config (ttl : Nat) (cache : Cache)
    (hdl : Request → Nat → Response) (req : Request) (resource : Resource)
    (now : Nat) :
    runRequestOptIn ttl cache hdl req resource now ≠ .error .configError := by
  unfold runRequestOptIn
  split
  next e heq =>
    intro hc
    rw [show e = PyError.configError from Except.error.inj hc] at heq
    exact process_resource_ne_config cache now req resource heq
  next pre heq =>
    split
    · split
      next e2 heq2 =>
        intro hc
        rw [show e2 = PyError.configError from Except.error.inj hc] at heq2
        exact handler_ne_config req pre.context defaultResponse heq2
      next resp ctx heq2 =>
        split
        next e3 heq3 =>
          intro hc
          rw [show e3 = PyError.configError from Except.error.inj hc] at heq3
          exact process_response_ne_config ttl cache now req resp heq3
        next c2 heq3 => simp
    · split
      next e2 heq2 =>
        intro hc
        rw [show e2 = PyError.configError from Except.error.inj hc] at heq2
        exact process_response_ne_config ttl cache now req (hdl req now) heq2
      next c2 heq2 => simp

/-- C1: a first request with method `m` and non-empty idempotency header `k`
that finds no live cache entry executes the handler and stores its response;
a second request with the same method and header value arriving before the
TTL elapses receives a response identical to the first (status, headers,
body) and the handler is not invoked for it. -/
theorem c1_duplicate_request_replayed (ttl : Nat) (cache : Cache)
    (hdl : Request → Nat → Response) (m k : String) (t1 t2 : Nat)
    (hk : k ≠ "")
    (hmiss : redisGet cache (redis_key_format m k) t1 = none)
    (hstream : (hdl ⟨m, some k⟩ t1).stream = none)
    (ht : t2 < t1 + ttl) :
    runRequest ttl cache hdl ⟨m, some k⟩ t1 =
      .ok ⟨hdl ⟨m, some k⟩ t1, true,
           redisSetex cache (redis_key_format m k)
             (encodeResponse (hdl ⟨m, some k⟩ t1)) t1 ttl, []⟩
    ∧ runRequest ttl
        (redisSetex cache (redis_key_format m k)
          (encodeResponse (hdl ⟨m, some k⟩ t1)) t1 ttl) hdl ⟨m, some k⟩ t2 =
      .ok ⟨hdl ⟨m, some k⟩ t1, false,
           redisSetex
             (redisSetex cache (redis_key_format m k)
               (encodeResponse (hdl ⟨m, some k⟩ t1)) t1 ttl)
             (redis_key_format m k) (encodeResponse (hdl ⟨m, some k⟩ t1)) t2 ttl, []⟩ := by
  have hdump : pickle_dumps (hdl ⟨m, some k⟩ t1) =
      .ok (encodeResponse (hdl ⟨m, some k⟩ t1)) := by
    unfold pickle_dumps
    rw [hstream]
  have e1 := process_request_miss cache t1 ⟨m, some k⟩ k rfl hk hmiss
  have e1r := process_response_store ttl cache t1 ⟨m, some k⟩ k
    (hdl ⟨m, some k⟩ t1) rfl hk hstream
  have hget2 : redisGet
      (redisSetex cache (redis_key_format m k)
        (encodeResponse (hdl ⟨m, some k⟩ t1)) t1 ttl)
      (redis_key_format m k) t2 = some (encodeResponse (hdl ⟨m, some k⟩ t1)) := by
    rw [redisGet_redisSetex]
    exact if_pos ht
  have hloads := pickle_roundtrip (hdl ⟨m, some k⟩ t1) _ hdump
  have e2 := process_request_hit
    (redisSetex cache (redis_key_format m k)
      (encodeResponse (hdl ⟨m, some k⟩ t1)) t1 ttl)
    t2 ⟨m, some k⟩ k (encodeResponse (hdl ⟨m, some k⟩ t1)) (hdl ⟨m, some k⟩ t1)
    rfl hk hget2 hloads
  have hh : handler ⟨m, some k⟩ [(k, hdl ⟨m, some k⟩ t1)] defaultResponse =
      .ok (hdl ⟨m, some k⟩ t1, []) := by
    simp [handler, ctxPop, copyFields]
  have e2r := process_response_store ttl
    (redisSetex cache (redis_key_format m k)
      (encodeResponse (hdl ⟨m, some k⟩ t1)) t1 ttl)
    t2 ⟨m, some k⟩ k (hdl ⟨m, some k⟩ t1) rfl hk hstream
  constructor
  · simp [runRequest, e1, e1r]
  · simp [runRequest, e2, hh, e2r]

/-- C1 witness: TTL 10, empty cache, `POST` with key `ABCD` at times 0 and
5; the second run replays the first response without invoking the handler. -/
theorem c1_witness :
    runRequest 10 [] sampleHdl ⟨"POST", some "ABCD"⟩ 0 =
      .ok ⟨sampleHdl ⟨"POST", some "ABCD"⟩ 0, true,
           redisSetex [] (redis_key_format "POST" "ABCD")
             (encodeResponse (sampleHdl ⟨"POST", some "ABCD"⟩ 0)) 0 10, []⟩
    ∧ runRequest 10
        (redisSetex [] (redis_key_format "POST" "ABCD")
          (encodeResponse (sampleHdl ⟨"POST", some "ABCD"⟩ 0)) 0 10)
        sampleHdl ⟨"POST", some "ABCD"⟩ 5 =
      .ok ⟨sampleHdl ⟨"POST", some "ABCD"⟩ 0, false,
           redisSetex
             (redisSetex [] (redis_key_format "POST" "ABCD")
               (encodeResponse (sampleHdl ⟨"POST", some "ABCD"⟩ 0)) 0 10)
             (redis_key_format "POST" "ABCD")
             (encodeResponse (sampleHdl ⟨"POST", some "ABCD"⟩ 0)) 5 10, []⟩ :=
  c1_duplicate_request_replayed 10 [] sampleHdl "POST" "ABCD" 0 5
    (by decide) rfl rfl (by decide)

/-- C2: decoding the encoded snapshot of any response the codec can encode
yields a response with identical status, headers, and body. -/
theorem c2_snapshot_roundtrip (r : Response) (bs : List Nat)
    (h : pickle_dumps r = .ok bs) :
    ∃ r2, pickle_loads bs = .ok r2 ∧ r2.status = r.status
      ∧ r2.headers = r.headers ∧ r2.body = r.body :=
  ⟨r, pickle_roundtrip r bs h, rfl, rfl, rfl⟩

/-- C2 witness: the concrete sample response round-trips. -/
theorem c2_witness :
    ∃ r2, pickle_loads (encodeResponse sampleResponse) = .ok r2
      ∧ r2.status = sampleResponse.status
      ∧ r2.headers = sampleResponse.headers
      ∧ r2.body = sampleResponse.body :=
  c2_snapshot_roundtrip sampleResponse (encodeResponse sampleResponse) rfl

/-- C3 counterexample: the claim's unrestricted injectivity fails — the
formatted keys of `("POST_X", "Y")` and `("POST", "X_Y")` coincide although
the pairs differ. -/
theorem c3_counterexample :
    redis_key_format "POST_X" "Y" = redis_key_format "POST" "X_Y"
    ∧ ¬("POST_X" = "POST" ∧ "Y" = "X_Y") := by
  constructor
  · decide
  · decide

/-- C3 (amended): key derivation is a pure function of method and header
value, and it is injective as long as the methods contain no underscore —
which holds for every canonical HTTP verb; header values are unrestricted
and compared byte-for-byte, case-sensitively. -/
theorem c3_key_injective_amended (m1 h1 m2 h2 : String)
    (hm1 : '_' ∉ m1.data) (hm2 : '_' ∉ m2.data) :
    redis_key_format m1 h1 = redis_key_format m2 h2 ↔ (m1 = m2 ∧ h1 = h2) := by
  have e : ∀ (mm hh : String), (redis_key_format mm hh).data
      = "FALCON_REQUEST_".data ++ (mm.data ++ ('_' :: hh.data)) := by
    intro mm hh
    show ((("FALCON_REQUEST_" ++ mm) ++ "_") ++ hh).data = _
    have hsep : ("_" : String).data = ['_'] := rfl
    simp [hsep, List.append_assoc]
  constructor
  · intro h
    have hd : (redis_key_format m1 h1).data = (redis_key_format m2 h2).data := by
      rw [h]
    rw [e, e] at hd
    have h' := List.append_cancel_left hd
    obtain ⟨e1, e2⟩ := sep_inj '_' m1.data m2.data h1.data h2.data hm1 hm2 h'
    exact ⟨String.ext_iff.mpr e1, String.ext_iff.mpr e2⟩
  · rintro ⟨rfl, rfl⟩
    rfl

/-- C3 witness: the amended statement evaluated at underscore-free verbs. -/
theorem c3_witness :
    redis_key_format "POST" "A" = redis_key_format "POST" "A" ↔
      ("POST" = "POST" ∧ "A" = "A") :=
  c3_key_injective_amended "POST" "A" "POST" "A" (by decide) (by decide)

/-- C4 counterexample: a GET carrying an idempotency header through
`IdempotencyMiddleware` is in the "not applicable" state (the scope policy
rejects it and the handler runs), yet the post-handler phase writes the
cache, leaving it changed. -/
theorem c4_counterexample :
    scope_applies ⟨"GET", some "K"⟩ ⟨some PyVal.pyTrue, some PyVal.pyTrue⟩ = false
    ∧ runRequestOptIn 10 [] sampleHdl ⟨"GET", some "K"⟩
        ⟨some PyVal.pyTrue, some PyVal.pyTrue⟩ 3 = .ok c4res
    ∧ c4res.handlerInvoked = true
    ∧ c4res.cache ≠ [] := by
  refine ⟨rfl, rfl, rfl, ?_⟩
  simp [c4res]

/-- C4 (amended): the post-handler phase stores the outgoing response
whenever the idempotency header is non-empty — including replay-triggered
requests (which refresh the TTL with the replayed response) and, under the
opt-in variant, requests whose scope policy said not-applicable; it leaves
the cache unchanged exactly when the header is absent or empty. -/
theorem c4_store_whenever_header (ttl : Nat) (cache : Cache)
    (hdl : Request → Nat → Response) (req : Request) (resource : Resource)
    (now : Nat) :
    (∀ res, runRequest ttl cache hdl req now = .ok res →
       (truthy req.header = false → res.cache = cache)
       ∧ (∀ k, req.header = some k → k ≠ "" →
           res.cache = redisSetex cache (redis_key_format req.method k)
             (encodeResponse res.response) now ttl))
    ∧ (∀ res, runRequestOptIn ttl cache hdl req resource now = .ok res →
       (truthy req.header = false → res.cache = cache)
       ∧ (∀ k, req.header = some k → k ≠ "" →
           res.cache = redisSetex cache (redis_key_format req.method k)
             (encodeResponse res.response) now ttl)) := by
  constructor
  · intro res hres
    have hpp := runRequest_cache_eq ttl cache hdl req now res hres
    exact process_response_ok_inv ttl cache now req res.response res.cache hpp
  · intro res hres
    have hpp := runRequestOptIn_cache_eq ttl cache hdl req resource now res hres
    exact process_response_ok_inv ttl cache now req res.response res.cache hpp

/-- C4 witness: the amended statement evaluated on the concrete
not-applicable GET run. -/
theorem c4_witness :
    c4res.cache = redisSetex [] (redis_key_format "GET" "K")
      (encodeResponse c4res.response) 3 10 :=
  ((c4_store_whenever_header 10 [] sampleHdl ⟨"GET", some "K"⟩
      ⟨some PyVal.pyTrue, some PyVal.pyTrue⟩ 3).2 c4res (by rfl)).2 "K" rfl
    (by decide)

/-- C5: under the opt-in policy, the pre-handler lookup phase runs if and
only if the method is POST with `idempotent_post` exactly `True`, or DELETE
with `idempotent_delete` exactly `True`; otherwise `process_resource` is a
no-op for every cache, and the request passes through to the handler with
its own response and without raising an error. -/
theorem c5_opt_in_scope (cache : Cache) (now : Nat) (req : Request)
    (resource : Resource) :
    (scope_applies req resource = true →
       process_resource cache now req resource = process_request cache now req)
    ∧ (scope_applies req resource = false →
       process_resource cache now req resource = .ok ⟨[], false⟩
       ∧ ∀ ttl hdl, (hdl req now).stream = none →
           ∃ c2, runRequestOptIn ttl cache hdl req resource now =
             .ok ⟨hdl req now, true, c2, []⟩) := by
  constructor
  · intro h
    rcases (scope_applies_iff req resource).1 h with ⟨hm, hf⟩ | ⟨hm, hf⟩
    · simp [process_resource, hm, hf]
    · have hne : ¬ req.method = "POST" := by rw [hm]; decide
      simp [process_resource, hm, hf, hne]
  · intro h
    have hnot : ¬ ((req.method = "POST" ∧ resource.idempotent_post = some .pyTrue)
        ∨ (req.method = "DELETE" ∧ resource.idempotent_delete = some .pyTrue)) := by
      intro hab
      rw [(scope_applies_iff req resource).2 hab] at h
      cases h
    have hpr : process_resource cache now req resource = .ok ⟨[], false⟩ := by
      by_cases hm : req.method = "POST"
      · have hf : ¬ resource.idempotent_post = some PyVal.pyTrue :=
          fun hf => hnot (.inl ⟨hm, hf⟩)
        simp [process_resource, hm, hf]
      · by_cases hm2 : req.method = "DELETE"
        · have hf : ¬ resource.idempotent_delete = some PyVal.pyTrue :=
            fun hf => hnot (.inr ⟨hm2, hf⟩)
          simp [process_resource, hm, hm2, hf]
        · simp [process_resource, hm, hm2]
    refine ⟨hpr, fun ttl hdl hstream => ?_⟩
    cases hh : req.header with
    | none =>
      refine ⟨cache, ?_⟩
      have hnop := process_response_nop ttl cache now req (hdl req now)
        (by simp [truthy, hh])
      simp [runRequestOptIn, hpr, hnop]
    | some s =>
      by_cases hk : s = ""
      · refine ⟨cache, ?_⟩
        have hnop := process_response_nop ttl cache now req (hdl req now)
          (by simp [truthy, hh, hk])
        simp [runRequestOptIn, hpr, hnop]
      · refine ⟨redisSetex cache (redis_key_format req.method s)
          (encodeResponse (hdl req now)) now ttl, ?_⟩
        have hst := process_response_store ttl cache now req s (hdl req now)
          hh hk hstream
        simp [runRequestOptIn, hpr, hst]

/-- C5 witness: a POST-enabled resource delegates the lookup for POST, and
the same resource passes a DELETE through untouched. -/
theorem c5_witness :
    process_resource [] 3 ⟨"POST", some "K"⟩ ⟨some PyVal.pyTrue, none⟩ =
      process_request [] 3 ⟨"POST", some "K"⟩
    ∧ process_resource [] 3 ⟨"DELETE", some "K"⟩ ⟨some PyVal.pyTrue, none⟩ =
        .ok ⟨[], false⟩ :=
  ⟨(c5_opt_in_scope [] 3 ⟨"POST", some "K"⟩ ⟨some PyVal.pyTrue, none⟩).1 (by decide),
   ((c5_opt_in_scope [] 3 ⟨"DELETE", some "K"⟩ ⟨some PyVal.pyTrue, none⟩).2
     (by decide)).1⟩

/-- C6 counterexample: a request whose response cannot be pickled ends the
whole request with the pickling error — the failure propagates to the
caller instead of being caught locally. -/
theorem c6_counterexample :
    runRequest 10 [] (fun _ _ => streamResponse) ⟨"POST", some "K"⟩ 0 =
      .error .unpicklable := rfl

/-- C6 (amended): when the response fails to encode, no store happens, but
the failure is not caught: the post-handler phase — and with it the whole
request — ends with the pickling exception instead of delivering the
handler's response. -/
theorem c6_encode_failure_propagates (ttl : Nat) (cache : Cache)
    (hdl : Request → Nat → Response) (req : Request) (now : Nat)
    (k : String) (s : Nat)
    (hh : req.header = some k) (hk : k ≠ "")
    (hmiss : redisGet cache (redis_key_format req.method k) now = none)
    (hs : (hdl req now).stream = some s) :
    runRequest ttl cache hdl req now = .error .unpicklable := by
  have e1 := process_request_miss cache now req k hh hk hmiss
  have e2 : process_response ttl cache now req (hdl req now) =
      .error .unpicklable := by
    simp [process_response, hh, hk, store_response_in_redis, pickle_dumps, hs,
      Except.map]
  simp [runRequest, e1, e2]

/-- C6 witness: the amended statement at a concrete DELETE request with a
stream-carrying response. -/
theorem c6_witness :
    runRequest 7 [] (fun _ _ => streamResponse) ⟨"DELETE", some "X"⟩ 2 =
      .error .unpicklable :=
  c6_encode_failure_propagates 7 [] (fun _ _ => streamResponse)
    ⟨"DELETE", some "X"⟩ 2 "X" 0 rfl (by decide) rfl rfl

/-- C7: whenever the pre-handler phase raises the short-circuit signal, the
request context holds exactly one entry, keyed by the idempotency header
value, and the replay hook overwrites every field of any outgoing response
with the stashed snapshot and leaves the context empty; when no signal is
raised the context is empty. -/
theorem c7_replay_context_invariant (cache : Cache) (now : Nat) (req : Request)
    (pre : PreOutcome) (h : process_request cache now req = .ok pre) :
    (pre.sentinel = true →
       ∃ k prev, req.header = some k ∧ pre.context = [(k, prev)]
         ∧ ∀ resp0, handler req pre.context resp0 = .ok (prev, []))
    ∧ (pre.sentinel = false → pre.context = []) := by
  unfold process_request at h
  split at h
  · cases h
    exact ⟨fun hs => absurd hs (by simp), fun _ => rfl⟩
  next k hh =>
    split at h
    · cases h
      exact ⟨fun hs => absurd hs (by simp), fun _ => rfl⟩
    · split at h
      next e heq => exact Except.noConfusion h
      next heq =>
        cases h
        exact ⟨fun hs => absurd hs (by simp), fun _ => rfl⟩
      next prev heq =>
        cases h
        refine ⟨fun _ => ⟨k, prev, hh, rfl, fun resp0 => ?_⟩,
          fun hs => absurd hs (by simp)⟩
        simp [handler, hh, ctxPop, copyFields]

/-- C7 witness: a concrete cache hit stashes exactly one entry and the
replay hook consumes it. -/
theorem c7_witness :
    ((⟨[("K", sampleResponse)], true⟩ : PreOutcome).sentinel = true →
       ∃ k prev, (⟨"POST", some "K"⟩ : Request).header = some k
         ∧ (⟨[("K", sampleResponse)], true⟩ : PreOutcome).context = [(k, prev)]
         ∧ ∀ resp0, handler ⟨"POST", some "K"⟩
             (⟨[("K", sampleResponse)], true⟩ : PreOutcome).context resp0 =
               .ok (prev, []))
    ∧ ((⟨[("K", sampleResponse)], true⟩ : PreOutcome).sentinel = false →
       (⟨[("K", sampleResponse)], true⟩ : PreOutcome).context = []) :=
  c7_replay_context_invariant hitCache 0 ⟨"POST", some "K"⟩
    ⟨[("K", sampleResponse)], true⟩ (by rfl)

/-- C8: a request whose idempotency header is absent or empty always runs
the handler, gets the handler's own response, and leaves the cache exactly
as it was, with nothing stashed in the request context. -/
theorem c8_no_key_passthrough (ttl : Nat) (cache : Cache)
    (hdl : Request → Nat → Response) (m : String) (hd : Option String)
    (now : Nat) (h : hd = none ∨ hd = some "") :
    runRequest ttl cache hdl ⟨m, hd⟩ now =
      .ok ⟨hdl ⟨m, hd⟩ now, true, cache, []⟩ := by
  have hpr : process_request cache now ⟨m, hd⟩ = .ok ⟨[], false⟩ := by
    rcases h with h | h <;> subst h <;> simp [process_request]
  have hnop : process_response ttl cache now ⟨m, hd⟩ (hdl ⟨m, hd⟩ now) =
      .ok cache := by
    apply process_response_nop
    rcases h with h | h <;> subst h <;> simp [truthy]
  simp [runRequest, hpr, hnop]

/-- C8 witness: a header-less GET at a concrete time. -/
theorem c8_witness :
    runRequest 10 [] sampleHdl ⟨"GET", none⟩ 7 =
      .ok ⟨sampleHdl ⟨"GET", none⟩ 7, true, [], []⟩ :=
  c8_no_key_passthrough 10 [] sampleHdl "GET" none 7 (Or.inl rfl)

/-- C9: construction fails with the configuration error exactly when both
the connection handle and the connection string are absent; the TTL
defaults to 3600 when not given; and no request-handling run can ever
produce the configuration error. -/
theorem c9_construction :
    (∀ url conn ttl2, mwInit url conn ttl2 = .error .configError ↔
       (conn = none ∧ url = none))
    ∧ (∀ url conn cfg, mwInitDefault url conn = .ok cfg → cfg.ttl = 3600)
    ∧ (∀ ttl cache hdl req now,
        runRequest ttl cache hdl req now ≠ .error .configError)
    ∧ (∀ ttl cache hdl req resource now,
        runRequestOptIn ttl cache hdl req resource now ≠ .error .configError) := by
  refine ⟨fun url conn ttl2 => ?_, fun url conn cfg h => ?_,
    runRequest_ne_config, runRequestOptIn_ne_config⟩
  · unfold mwInit
    by_cases hc : conn = none ∧ url = none
    · simp [hc]
    · simp [hc]
  · unfold mwInitDefault mwInit at h
    split at h
    · exact Except.noConfusion h
    · cases h
      rfl

/-- C9 witness: both-absent construction errs, and a connection-only
construction succeeds with the default TTL of 3600. -/
theorem c9_witness :
    (mwInit none none 60 = .error .configError ↔
       ((none : Option RedisConn) = none ∧ (none : Option String) = none))
    ∧ (⟨none, some ⟨5⟩, 3600⟩ : MiddlewareConfig).ttl = 3600 :=
  ⟨c9_construction.1 none none 60,
   c9_construction.2.1 none (some ⟨5⟩) ⟨none, some ⟨5⟩, 3600⟩ (by rfl)⟩

/-- C10: the replay hook's `pop` has no fallback: it succeeds exactly when
the request context holds an entry under the request's current header
value, and fails with a `KeyError` otherwise. -/
theorem c10_pop_no_fallback (req : Request)
    (context : List (String × Response)) (resp0 : Response) :
    (stash_present req context = true →
       ∃ prev rest, handler req context resp0 = .ok (prev, rest))
    ∧ (stash_present req context = false →
       handler req context resp0 = .error .keyError) := by
  constructor
  · intro h
    cases hh : req.header with
    | none =>
      unfold stash_present at h
      rw [hh] at h
      simp at h
    | some k =>
      cases hp : ctxPop context k with
      | none =>
        exfalso
        unfold stash_present at h
        rw [hh] at h
        simp [hp] at h
      | some p =>
        obtain ⟨prev, rest⟩ := p
        exact ⟨copyFields resp0 prev, rest, by simp [handler, hh, hp]⟩
  · intro h
    cases hh : req.header with
    | none => simp [handler, hh]
    | some k =>
      cases hp : ctxPop context k with
      | none => simp [handler, hh, hp]
      | some p =>
        exfalso
        unfold stash_present at h
        rw [hh] at h
        simp [hp] at h

/-- C10 witness: the hook succeeds on a context holding the entry and
raises `KeyError` on an empty context. -/
theorem c10_witness :
    (∃ prev rest, handler ⟨"POST", some "K"⟩ [("K", sampleResponse)]
        defaultResponse = .ok (prev, rest))
    ∧ handler ⟨"POST", some "K"⟩ [] defaultResponse = .error .keyError :=
  ⟨(c10_pop_no_fallback ⟨"POST", some "K"⟩ [("K", sampleResponse)]
      defaultResponse).1 (by rfl),
   (c10_pop_no_fallback ⟨"POST", some "K"⟩ [] defaultResponse).2 (by rfl)⟩

end FalconIdempotency
